import Mathlib

/-!
# Webperf — verification of the measurement core

Shallow embedding of the `webperf` CLI's core logic:

* the Lighthouse measurement runner (`src/lib/lighthouse-runner.ts`),
* the batch scenario scheduler (`src/perf.ts`, `batch` command),
* the result log fan-out and comparison (`src/lib/results.ts`),
* the process lifecycle manager (`process-manager.ts`).

TypeScript numbers are modelled as exact rationals (`ℚ`); the only place
where the IEEE infinities of `Math.min()` / `Math.max()` of an empty list
are observable is modelled explicitly by the `JsNum` type.  External
effects (the Lighthouse audit itself, `tree-kill`, `find-process`,
wall-clock timestamps, file append) are modelled as explicit parameters
or as explicit state, exactly at the call sites where the source consumes
them.
-/

namespace Webperf

/-- A TypeScript number that may be one of the IEEE infinities produced by
`Math.min()` / `Math.max()` over an empty argument list; every other value
occurring in the program is a finite number, carried as a rational. -/
inductive JsNum where
  | num (q : ℚ)
  | posInf
  | negInf
  deriving DecidableEq

/-- One raw Lighthouse sample — the six numeric fields extracted by
`runSingleMeasurement` (`src/lib/lighthouse-runner.ts`, lines 56–63). -/
structure MeasurementResult where
  score : ℚ
  fcp : ℚ
  lcp : ℚ
  tbt : ℚ
  cls : ℚ
  si : ℚ
  deriving DecidableEq

/-- `average` (`src/lib/lighthouse-runner.ts`, lines 73–76):
`if (arr.length === 0) return 0; return arr.reduce((a,b) => a+b, 0) / arr.length;` -/
def average (arr : List ℚ) : ℚ :=
  if arr.length = 0 then 0 else arr.foldl (· + ·) 0 / (arr.length : ℚ)

/-- `Math.min(...scores)`: `+∞` on an empty list, otherwise the least element. -/
def mathMin : List ℚ → JsNum
  | [] => JsNum.posInf
  | x :: xs => JsNum.num (xs.foldl min x)

/-- `Math.max(...scores)`: `-∞` on an empty list, otherwise the greatest element. -/
def mathMax : List ℚ → JsNum
  | [] => JsNum.negInf
  | x :: xs => JsNum.num (xs.foldl max x)

/-- The record returned by `runMeasurements`
(`src/lib/lighthouse-runner.ts`, lines 84–89 and 146–151). -/
structure MeasureOutcome where
  metrics : List MeasurementResult
  averages : MeasurementResult
  minScore : JsNum
  maxScore : JsNum
  deriving DecidableEq

/-- `runMeasurements` (`src/lib/lighthouse-runner.ts`, lines 81–155), with
the external audit engine abstracted as `audit` — the sample returned by
`runSingleMeasurement` on the i-th loop iteration (`i = 1 .. runs`).  The
browser launch/close, the override step and the 2-second pacing delay are
effects that do not touch the returned data and are not represented. -/
def runMeasurements (runs : Nat) (audit : Nat → MeasurementResult) : MeasureOutcome :=
  let metrics := (List.range runs).map (fun i => audit (i + 1))
  let scores := metrics.map (·.score)
  { metrics := metrics
    averages :=
      { score := average scores
        fcp := average (metrics.map (·.fcp))
        lcp := average (metrics.map (·.lcp))
        tbt := average (metrics.map (·.tbt))
        cls := average (metrics.map (·.cls))
        si := average (metrics.map (·.si)) }
    minScore := mathMin scores
    maxScore := mathMax scores }

/-- A list-`min` fold lands on a member of the list and bounds every member. -/
theorem foldl_min_spec (x : ℚ) (xs : List ℚ) :
    (xs.foldl min x ∈ x :: xs) ∧ ∀ y ∈ x :: xs, xs.foldl min x ≤ y := by
  induction xs generalizing x with
  | nil => simp
  | cons y ys ih =>
    obtain ⟨hmem, hle⟩ := ih (min x y)
    have hfo : List.foldl min x (y :: ys) = List.foldl min (min x y) ys := rfl
    constructor
    · rw [hfo]
      rcases List.mem_cons.mp hmem with h | h
      · rcases min_choice x y with hc | hc
        · rw [h, hc]; exact List.mem_cons_self _ _
        · rw [h, hc]; exact List.mem_cons_of_mem _ (List.mem_cons_self _ _)
      · exact List.mem_cons_of_mem _ (List.mem_cons_of_mem _ h)
    · intro z hz
      rw [hfo]
      rcases List.mem_cons.mp hz with rfl | hz2
      · exact le_trans (hle _ (List.mem_cons_self _ _)) (min_le_left _ _)
      · rcases List.mem_cons.mp hz2 with rfl | hz3
        · exact le_trans (hle _ (List.mem_cons_self _ _)) (min_le_right _ _)
        · exact hle _ (List.mem_cons_of_mem _ hz3)

/-- A list-`max` fold lands on a member of the list and dominates every member. -/
theorem foldl_max_spec (x : ℚ) (xs : List ℚ) :
    (xs.foldl max x ∈ x :: xs) ∧ ∀ y ∈ x :: xs, y ≤ xs.foldl max x := by
  induction xs generalizing x with
  | nil => simp
  | cons y ys ih =>
    obtain ⟨hmem, hle⟩ := ih (max x y)
    have hfo : List.foldl max x (y :: ys) = List.foldl max (max x y) ys := rfl
    constructor
    · rw [hfo]
      rcases List.mem_cons.mp hmem with h | h
      · rcases max_choice x y with hc | hc
        · rw [h, hc]; exact List.mem_cons_self _ _
        · rw [h, hc]; exact List.mem_cons_of_mem _ (List.mem_cons_self _ _)
      · exact List.mem_cons_of_mem _ (List.mem_cons_of_mem _ h)
    · intro z hz
      rw [hfo]
      rcases List.mem_cons.mp hz with rfl | hz2
      · exact le_trans (le_max_left _ _) (hle _ (List.mem_cons_self _ _))
      · rcases List.mem_cons.mp hz2 with rfl | hz3
        · exact le_trans (le_max_right _ _) (hle _ (List.mem_cons_self _ _))
        · exact hle _ (List.mem_cons_of_mem _ hz3)

/-- `mathMin` of a non-empty list is a member that bounds every member. -/
theorem mathMin_nonempty (l : List ℚ) (h : l ≠ []) :
    ∃ m, mathMin l = JsNum.num m ∧ m ∈ l ∧ ∀ y ∈ l, m ≤ y := by
  cases l with
  | nil => exact absurd rfl h
  | cons x xs =>
    obtain ⟨hmem, hle⟩ := foldl_min_spec x xs
    exact ⟨xs.foldl min x, rfl, hmem, hle⟩

/-- `mathMax` of a non-empty list is a member dominated by no member. -/
theorem mathMax_nonempty (l : List ℚ) (h : l ≠ []) :
    ∃ m, mathMax l = JsNum.num m ∧ m ∈ l ∧ ∀ y ∈ l, y ≤ m := by
  cases l with
  | nil => exact absurd rfl h
  | cons x xs =>
    obtain ⟨hmem, hle⟩ := foldl_max_spec x xs
    exact ⟨xs.foldl max x, rfl, hmem, hle⟩

/-- `average` of a non-empty list is its sum divided by its length. -/
theorem average_eq_sum_div (l : List ℚ) (h : l ≠ []) :
    average l = l.sum / (l.length : ℚ) := by
  have hlen : l.length ≠ 0 := fun hl => h (List.eq_nil_of_length_eq_zero hl)
  unfold average
  rw [if_neg hlen]
  congr 1
  rw [List.sum_eq_foldl]

/-- The arithmetic mean of a list of samples. -/
def meanOf (l : List ℚ) : ℚ := l.sum / (l.length : ℚ)

/-- C3: for every `runs ≥ 1` and every sequence of per-run audit results,
`runMeasurements` returns exactly `runs` samples, every averaged field is the
arithmetic mean of that field across the runs, and `minScore` / `maxScore`
are the least / greatest of the raw per-run score samples. -/
theorem runMeasurements_samples_averages_spread (runs : Nat)
    (audit : Nat → MeasurementResult) (h : 1 ≤ runs) :
    (runMeasurements runs audit).metrics.length = runs ∧
    (runMeasurements runs audit).averages.score
      = meanOf ((runMeasurements runs audit).metrics.map (·.score)) ∧
    (runMeasurements runs audit).averages.fcp
      = meanOf ((runMeasurements runs audit).metrics.map (·.fcp)) ∧
    (runMeasurements runs audit).averages.lcp
      = meanOf ((runMeasurements runs audit).metrics.map (·.lcp)) ∧
    (runMeasurements runs audit).averages.tbt
      = meanOf ((runMeasurements runs audit).metrics.map (·.tbt)) ∧
    (runMeasurements runs audit).averages.cls
      = meanOf ((runMeasurements runs audit).metrics.map (·.cls)) ∧
    (runMeasurements runs audit).averages.si
      = meanOf ((runMeasurements runs audit).metrics.map (·.si)) ∧
    (∃ m, (runMeasurements runs audit).minScore = JsNum.num m ∧
      m ∈ (runMeasurements runs audit).metrics.map (·.score) ∧
      ∀ y ∈ (runMeasurements runs audit).metrics.map (·.score), m ≤ y) ∧
    (∃ m, (runMeasurements runs audit).maxScore = JsNum.num m ∧
      m ∈ (runMeasurements runs audit).metrics.map (·.score) ∧
      ∀ y ∈ (runMeasurements runs audit).metrics.map (·.score), y ≤ m) := by
  have hlen : (runMeasurements runs audit).metrics.length = runs := by
    simp [runMeasurements]
  have hne : (runMeasurements runs audit).metrics ≠ [] := by
    intro hnil
    rw [hnil] at hlen
    simp at hlen
    omega
  have hmapne : ∀ f : MeasurementResult → ℚ,
      (runMeasurements runs audit).metrics.map f ≠ [] := by
    intro f hnil
    exact hne (List.map_eq_nil_iff.mp hnil)
  refine ⟨hlen, ?_, ?_, ?_, ?_, ?_, ?_, ?_, ?_⟩
  · exact average_eq_sum_div _ (hmapne _)
  · exact average_eq_sum_div _ (hmapne _)
  · exact average_eq_sum_div _ (hmapne _)
  · exact average_eq_sum_div _ (hmapne _)
  · exact average_eq_sum_div _ (hmapne _)
  · exact average_eq_sum_div _ (hmapne _)
  · exact mathMin_nonempty _ (hmapne _)
  · exact mathMax_nonempty _ (hmapne _)

/-- A concrete audit environment used to witness the claims about
`runMeasurements` at `runs = 2`. -/
def auditW : Nat → MeasurementResult := fun i =>
  { score := (i : ℚ) * 10, fcp := (i : ℚ) + 100, lcp := (i : ℚ) + 200,
    tbt := (i : ℚ), cls := (i : ℚ) / 100, si := (i : ℚ) + 300 }

/-- Witness for C3 at the concrete input `runs = 2`, `audit = auditW`. -/
theorem runMeasurements_samples_averages_spread_witness :
    1 ≤ 2 ∧
    ((runMeasurements 2 auditW).metrics.length = 2 ∧
    (runMeasurements 2 auditW).averages.score
      = meanOf ((runMeasurements 2 auditW).metrics.map (·.score)) ∧
    (runMeasurements 2 auditW).averages.fcp
      = meanOf ((runMeasurements 2 auditW).metrics.map (·.fcp)) ∧
    (runMeasurements 2 auditW).averages.lcp
      = meanOf ((runMeasurements 2 auditW).metrics.map (·.lcp)) ∧
    (runMeasurements 2 auditW).averages.tbt
      = meanOf ((runMeasurements 2 auditW).metrics.map (·.tbt)) ∧
    (runMeasurements 2 auditW).averages.cls
      = meanOf ((runMeasurements 2 auditW).metrics.map (·.cls)) ∧
    (runMeasurements 2 auditW).averages.si
      = meanOf ((runMeasurements 2 auditW).metrics.map (·.si)) ∧
    (∃ m, (runMeasurements 2 auditW).minScore = JsNum.num m ∧
      m ∈ (runMeasurements 2 auditW).metrics.map (·.score) ∧
      ∀ y ∈ (runMeasurements 2 auditW).metrics.map (·.score), m ≤ y) ∧
    (∃ m, (runMeasurements 2 auditW).maxScore = JsNum.num m ∧
      m ∈ (runMeasurements 2 auditW).metrics.map (·.score) ∧
      ∀ y ∈ (runMeasurements 2 auditW).metrics.map (·.score), y ≤ m)) :=
  ⟨by norm_num, runMeasurements_samples_averages_spread 2 auditW (by norm_num)⟩

/-! ## Batch scheduler (`src/perf.ts`, `batch` command) -/

/-- `TestScenario` (`src/lib/types.ts`): a declared measurement job.
Optional fields are `Option`s; a missing `enabled` means enabled. -/
structure TestScenario where
  id : String
  note : String
  url : String
  runs : Option Nat
  applyOverrides : Option Bool
  enabled : Option Bool
  tags : Option (List String)
  deriving DecidableEq

/-- A score range as stored in a summary (`range: { minScore, maxScore }`). -/
structure ScoreRange where
  minScore : JsNum
  maxScore : JsNum
  deriving DecidableEq

/-- `MeasurementSummary` (`src/lib/types.ts`).  Timestamp strings are
produced by the wall clock in the source; the batch model passes them in
as opaque values. -/
structure MeasurementSummary where
  url : String
  runs : Nat
  timestamp : String
  overridesApplied : Bool
  note : Option String
  averages : MeasurementResult
  range : ScoreRange
  rawScores : List ℚ
  deriving DecidableEq

/-- One entry of `BatchResult.results`: a success holds a summary, a
failure holds the thrown error's message (`src/lib/types.ts`). -/
structure ScenarioOutcome where
  scenario : TestScenario
  summary : Option MeasurementSummary
  error : Option String
  startedAt : String
  completedAt : String
  deriving DecidableEq

/-- `BatchResult` (`src/lib/types.ts`). -/
structure BatchResult where
  batchId : String
  startedAt : String
  completedAt : String
  tags : Option (List String)
  totalScenarios : Nat
  completed : Nat
  failed : Nat
  duration : Nat
  results : List ScenarioOutcome
  deriving DecidableEq

/-- The scenario filter of the `batch` command (`src/perf.ts`, lines
285–310): drop `enabled === false`, keep only scenarios carrying every
requested tag when a tag filter is given, then narrow to a single id when
one is requested.  (The source exits with an error when a filter step
leaves nothing; that abort path produces no batch at all.) -/
def filterScenarios (scenarios : List TestScenario) (tagFilter : List String)
    (scenarioId : Option String) : List TestScenario :=
  let byEnabled := scenarios.filter (fun s => s.enabled ≠ some false)
  let byTags :=
    if tagFilter.length > 0 then
      byEnabled.filter (fun s =>
        match s.tags with
        | none => false
        | some ts => if ts.length = 0 then false else tagFilter.all (fun t => ts.contains t))
    else byEnabled
  match scenarioId with
  | some sid => byTags.filter (fun s => s.id = sid)
  | none => byTags

/-- The initial `batchResult` value (`src/perf.ts`, lines 330–340):
counters at zero, `totalScenarios` fixed to the number of filtered
scenarios admitted to the batch, empty results list. -/
def initBatch (batchId startedAt : String) (tagFilter : List String)
    (filtered : List TestScenario) : BatchResult :=
  { batchId := batchId
    startedAt := startedAt
    completedAt := ""
    tags := if tagFilter.length > 0 then some tagFilter else none
    totalScenarios := filtered.length
    completed := 0
    failed := 0
    duration := 0
    results := [] }

/-- `runScenario` (`src/perf.ts`, lines 343–413).  The measurement step —
`runMeasurements` together with the surrounding effectful code of the
`try` block — is abstracted as `meas`, returning either the
`runMeasurements` record or the message of a thrown exception.  The
success branch builds the summary and pushes a success entry, bumping
`completed`; the `catch` branch pushes a failure entry carrying the
error's message, bumping `failed`.  `scenario.runs || args.runs` is JS
truthiness: a declared run count of `0` falls back to the default. -/
def runScenario (defaultRuns : Nat) (notePrefix : String) (startedAt completedAt : String)
    (meas : TestScenario → Except String MeasureOutcome)
    (st : BatchResult) (sc : TestScenario) : BatchResult :=
  let scenarioRuns :=
    match sc.runs with
    | some r => if r = 0 then defaultRuns else r
    | none => defaultRuns
  let fullNote : Option String :=
    if sc.note = "" then none
    else if notePrefix = "" then some sc.note
    else some (notePrefix ++ " " ++ sc.note)
  match meas sc with
  | Except.ok m =>
    let summary : MeasurementSummary :=
      { url := sc.url
        runs := scenarioRuns
        timestamp := completedAt
        overridesApplied := sc.applyOverrides.getD false
        note := fullNote
        averages := m.averages
        range := { minScore := m.minScore, maxScore := m.maxScore }
        rawScores := m.metrics.map (·.score) }
    { st with
      results := st.results ++
        [{ scenario := sc, summary := some summary, error := none,
           startedAt := startedAt, completedAt := completedAt }]
      completed := st.completed + 1 }
  | Except.error msg =>
    { st with
      results := st.results ++
        [{ scenario := sc, summary := none, error := some msg,
           startedAt := startedAt, completedAt := completedAt }]
      failed := st.failed + 1 }

/-- The batch execution loop (`src/perf.ts`, lines 415–441).  With
concurrency `1` the scenarios complete in queue order; with a larger bound
the worker pool still resolves each admitted scenario exactly once, but in
some order `order` that is a permutation of the admitted list — each
resolution runs `runScenario`'s push-and-count update synchronously.  The
loop is therefore modelled as a fold of `runScenario` over a completion
order, followed by the finalization of `duration` / `completedAt`. -/
def runBatch (batchId startedAt completedAt : String) (tagFilter : List String)
    (defaultRuns : Nat) (notePrefix : String) (duration : Nat)
    (meas : TestScenario → Except String MeasureOutcome)
    (filtered : List TestScenario) (order : List TestScenario) : BatchResult :=
  let final := order.foldl
    (runScenario defaultRuns notePrefix startedAt completedAt meas)
    (initBatch batchId startedAt tagFilter filtered)
  { final with completedAt := completedAt, duration := duration }

/-- Each `runScenario` resolution pushes exactly one outcome and bumps
exactly one of the two counters; folded over any order this adds
`order.length` to both tallies and leaves `totalScenarios` untouched. -/
theorem foldl_runScenario_counts (defaultRuns : Nat) (notePrefix sa ca : String)
    (meas : TestScenario → Except String MeasureOutcome)
    (order : List TestScenario) (st : BatchResult) :
    let final := order.foldl (runScenario defaultRuns notePrefix sa ca meas) st
    final.completed + final.failed = st.completed + st.failed + order.length ∧
    final.results.length = st.results.length + order.length ∧
    final.totalScenarios = st.totalScenarios := by
  induction order generalizing st with
  | nil => simp
  | cons sc rest ih =>
    obtain ⟨h1, h2, h3⟩ := ih (runScenario defaultRuns notePrefix sa ca meas st sc)
    refine ⟨?_, ?_, ?_⟩
    · rw [List.foldl_cons, h1]
      cases hm : meas sc <;> simp [runScenario, hm] <;> omega
    · rw [List.foldl_cons, h2]
      cases hm : meas sc <;> simp [runScenario, hm] <;> omega
    · rw [List.foldl_cons, h3]
      cases hm : meas sc <;> simp [runScenario, hm]

/-- C1: for every batch over a filtered scenario list — whatever the
concurrency bound, i.e. for every completion order that is a permutation
of the admitted scenarios — the finished batch satisfies
`completed + failed = totalScenarios = results.length`. -/
theorem batch_count_invariant (scenarios : List TestScenario)
    (tagFilter : List String) (scenarioId : Option String)
    (batchId startedAt completedAt : String) (defaultRuns : Nat)
    (notePrefix : String) (duration : Nat)
    (meas : TestScenario → Except String MeasureOutcome)
    (order : List TestScenario)
    (hperm : order.Perm (filterScenarios scenarios tagFilter scenarioId)) :
    (runBatch batchId startedAt completedAt tagFilter defaultRuns notePrefix
        duration meas (filterScenarios scenarios tagFilter scenarioId) order).completed +
      (runBatch batchId startedAt completedAt tagFilter defaultRuns notePrefix
        duration meas (filterScenarios scenarios tagFilter scenarioId) order).failed =
      (runBatch batchId startedAt completedAt tagFilter defaultRuns notePrefix
        duration meas (filterScenarios scenarios tagFilter scenarioId) order).totalScenarios ∧
    (runBatch batchId startedAt completedAt tagFilter defaultRuns notePrefix
        duration meas (filterScenarios scenarios tagFilter scenarioId) order).totalScenarios =
      (runBatch batchId startedAt completedAt tagFilter defaultRuns notePrefix
        duration meas (filterScenarios scenarios tagFilter scenarioId) order).results.length := by
  obtain ⟨h1, h2, h3⟩ := foldl_runScenario_counts defaultRuns notePrefix startedAt
    completedAt meas order (initBatch batchId startedAt tagFilter
      (filterScenarios scenarios tagFilter scenarioId))
  have hlen := hperm.length_eq
  constructor
  · show (_ : BatchResult).completed + _ = _
    simp only [runBatch]
    rw [h1, h3]
    simp [initBatch, hlen]
  · show (_ : BatchResult).totalScenarios = _
    simp only [runBatch]
    rw [h2, h3]
    simp [initBatch, hlen]

/-- The single outcome entry `runScenario` pushes for a scenario —
success entry with a summary, or failure entry with the thrown message. -/
def scenarioOutcomeOf (defaultRuns : Nat) (notePrefix startedAt completedAt : String)
    (meas : TestScenario → Except String MeasureOutcome)
    (sc : TestScenario) : ScenarioOutcome :=
  let scenarioRuns :=
    match sc.runs with
    | some r => if r = 0 then defaultRuns else r
    | none => defaultRuns
  let fullNote : Option String :=
    if sc.note = "" then none
    else if notePrefix = "" then some sc.note
    else some (notePrefix ++ " " ++ sc.note)
  match meas sc with
  | Except.ok m =>
    { scenario := sc
      summary := some
        { url := sc.url
          runs := scenarioRuns
          timestamp := completedAt
          overridesApplied := sc.applyOverrides.getD false
          note := fullNote
          averages := m.averages
          range := { minScore := m.minScore, maxScore := m.maxScore }
          rawScores := m.metrics.map (·.score) }
      error := none
      startedAt := startedAt
      completedAt := completedAt }
  | Except.error msg =>
    { scenario := sc, summary := none, error := some msg,
      startedAt := startedAt, completedAt := completedAt }

/-- Folding `runScenario` appends exactly the per-scenario outcome entries,
in fold order. -/
theorem foldl_runScenario_results (defaultRuns : Nat) (notePrefix sa ca : String)
    (meas : TestScenario → Except String MeasureOutcome)
    (order : List TestScenario) (st : BatchResult) :
    (order.foldl (runScenario defaultRuns notePrefix sa ca meas) st).results =
      st.results ++ order.map (scenarioOutcomeOf defaultRuns notePrefix sa ca meas) := by
  induction order generalizing st with
  | nil => simp
  | cons sc rest ih =>
    rw [List.foldl_cons, ih]
    cases hm : meas sc <;> simp [runScenario, scenarioOutcomeOf, hm]

/-- The outcome entry built for a scenario always records that scenario. -/
theorem scenarioOutcomeOf_scenario (defaultRuns : Nat) (notePrefix sa ca : String)
    (meas : TestScenario → Except String MeasureOutcome) (sc : TestScenario) :
    (scenarioOutcomeOf defaultRuns notePrefix sa ca meas sc).scenario = sc := by
  cases hm : meas sc <;> simp [scenarioOutcomeOf, hm]

/-- C2: in a sequential batch, a scenario whose measurement throws is
recorded — at its own position — as a failed outcome carrying the thrown
message and no summary, while every admitted scenario (the later ones
included) still contributes its own outcome entry: the batch is not
aborted. -/
theorem batch_failure_isolation (batchId startedAt completedAt : String)
    (tagFilter : List String) (defaultRuns : Nat) (notePrefix : String)
    (duration : Nat) (meas : TestScenario → Except String MeasureOutcome)
    (filtered : List TestScenario) (i : Nat) (hi : i < filtered.length)
    (msg : String) (hfail : meas (filtered.get ⟨i, hi⟩) = Except.error msg) :
    (runBatch batchId startedAt completedAt tagFilter defaultRuns notePrefix
        duration meas filtered filtered).results.length = filtered.length ∧
    (∀ j, j < filtered.length → ∃ e,
      (runBatch batchId startedAt completedAt tagFilter defaultRuns notePrefix
        duration meas filtered filtered).results[j]? = some e ∧
      some e.scenario = filtered[j]?) ∧
    (∃ e,
      (runBatch batchId startedAt completedAt tagFilter defaultRuns notePrefix
        duration meas filtered filtered).results[i]? = some e ∧
      e.scenario = filtered.get ⟨i, hi⟩ ∧ e.error = some msg ∧ e.summary = none) := by
  have hres : (runBatch batchId startedAt completedAt tagFilter defaultRuns notePrefix
      duration meas filtered filtered).results =
      filtered.map (scenarioOutcomeOf defaultRuns notePrefix startedAt completedAt meas) := by
    simp only [runBatch]
    rw [foldl_runScenario_results]
    simp [initBatch]
  refine ⟨?_, ?_, ?_⟩
  · rw [hres]; simp
  · intro j hj
    refine ⟨scenarioOutcomeOf defaultRuns notePrefix startedAt completedAt meas
      (filtered.get ⟨j, hj⟩), ?_, ?_⟩
    · rw [hres]
      rw [List.getElem?_map]
      rw [List.getElem?_eq_getElem hj]
      rfl
    · rw [List.getElem?_eq_getElem hj]
      rw [scenarioOutcomeOf_scenario]
      rfl
  · refine ⟨scenarioOutcomeOf defaultRuns notePrefix startedAt completedAt meas
      (filtered.get ⟨i, hi⟩), ?_, ?_, ?_, ?_⟩
    · rw [hres]
      rw [List.getElem?_map]
      rw [List.getElem?_eq_getElem hi]
      rfl
    · exact scenarioOutcomeOf_scenario _ _ _ _ _ _
    · simp only [List.get_eq_getElem] at hfail
      simp [scenarioOutcomeOf, hfail]
    · simp only [List.get_eq_getElem] at hfail
      simp [scenarioOutcomeOf, hfail]

/-- A scenario used in concrete batch witnesses. -/
def scW1 : TestScenario :=
  { id := "home", note := "homepage", url := "https://example.com",
    runs := some 2, applyOverrides := none, enabled := none,
    tags := some ["prod"] }

/-- A second scenario (disabled) used in concrete batch witnesses. -/
def scW2 : TestScenario :=
  { id := "off", note := "disabled one", url := "https://example.com/off",
    runs := none, applyOverrides := none, enabled := some false, tags := none }

/-- A third scenario used in concrete batch witnesses. -/
def scW3 : TestScenario :=
  { id := "about", note := "", url := "https://example.com/about",
    runs := none, applyOverrides := some true, enabled := some true,
    tags := none }

/-- A measurement environment for witnesses: the `about` scenario's
measurement throws, every other scenario measures successfully. -/
def measW : TestScenario → Except String MeasureOutcome := fun sc =>
  if sc.id = "about" then Except.error "net::ERR_CONNECTION_REFUSED"
  else Except.ok (runMeasurements 2 auditW)

/-- Witness for C2 at a concrete two-scenario batch whose first scenario's
measurement throws: the failure is recorded in place and the second
scenario still produces its own outcome. -/
theorem batch_failure_isolation_witness :
    0 < ([scW3, scW1] : List TestScenario).length ∧
    ((runBatch "b2" "t0" "t1" [] 3 "" 5 measW [scW3, scW1] [scW3, scW1]).results.length
        = ([scW3, scW1] : List TestScenario).length ∧
    (∀ j, j < ([scW3, scW1] : List TestScenario).length → ∃ e,
      (runBatch "b2" "t0" "t1" [] 3 "" 5 measW [scW3, scW1] [scW3, scW1]).results[j]? = some e ∧
      some e.scenario = ([scW3, scW1] : List TestScenario)[j]?) ∧
    (∃ e,
      (runBatch "b2" "t0" "t1" [] 3 "" 5 measW [scW3, scW1] [scW3, scW1]).results[0]? = some e ∧
      e.scenario = ([scW3, scW1] : List TestScenario).get ⟨0, by norm_num⟩ ∧
      e.error = some "net::ERR_CONNECTION_REFUSED" ∧ e.summary = none)) :=
  ⟨by norm_num,
    batch_failure_isolation "b2" "t0" "t1" [] 3 "" 5 measW [scW3, scW1] 0
      (by norm_num) "net::ERR_CONNECTION_REFUSED" rfl⟩

/-- Witness for C1 at a concrete three-scenario batch (one scenario
disabled, one failing), completion order equal to admission order. -/
theorem batch_count_invariant_witness :
    (runBatch "b1" "t0" "t1" [] 3 "" 5 measW
        (filterScenarios [scW1, scW2, scW3] [] none)
        (filterScenarios [scW1, scW2, scW3] [] none)).completed +
      (runBatch "b1" "t0" "t1" [] 3 "" 5 measW
        (filterScenarios [scW1, scW2, scW3] [] none)
        (filterScenarios [scW1, scW2, scW3] [] none)).failed =
      (runBatch "b1" "t0" "t1" [] 3 "" 5 measW
        (filterScenarios [scW1, scW2, scW3] [] none)
        (filterScenarios [scW1, scW2, scW3] [] none)).totalScenarios ∧
    (runBatch "b1" "t0" "t1" [] 3 "" 5 measW
        (filterScenarios [scW1, scW2, scW3] [] none)
        (filterScenarios [scW1, scW2, scW3] [] none)).totalScenarios =
      (runBatch "b1" "t0" "t1" [] 3 "" 5 measW
        (filterScenarios [scW1, scW2, scW3] [] none)
        (filterScenarios [scW1, scW2, scW3] [] none)).results.length :=
  batch_count_invariant [scW1, scW2, scW3] [] none "b1" "t0" "t1" 3 "" 5 measW
    (filterScenarios [scW1, scW2, scW3] [] none) (List.Perm.refl _)

/-- C4: `runs = 0` yields an empty sample list, and every averaged field —
`averages.score` included — is `0`, by the explicit empty-list branch of
`average`, not by a division by zero. -/
theorem runMeasurements_zero_runs (audit : Nat → MeasurementResult) :
    (runMeasurements 0 audit).metrics = [] ∧
    (runMeasurements 0 audit).averages =
      { score := 0, fcp := 0, lcp := 0, tbt := 0, cls := 0, si := 0 } := by
  constructor <;> rfl

/-- C10: with `runs = 0` the score list is empty, so `Math.min(...scores)`
is `+∞` and `Math.max(...scores)` is `-∞` — the min/max spread has no
zero-run policy, unlike the averages of the same call. -/
theorem runMeasurements_zero_runs_spread (audit : Nat → MeasurementResult) :
    (runMeasurements 0 audit).minScore = JsNum.posInf ∧
    (runMeasurements 0 audit).maxScore = JsNum.negInf := by
  constructor <;> rfl

/-! ## Result comparison (`src/lib/results.ts`, `compareResults`) -/

/-- `ComparisonResult` (`src/lib/types.ts`). -/
structure ComparisonResult where
  metric : String
  before : ℚ
  after : ℚ
  diff : ℚ
  percentChange : ℚ
  improved : Bool
  deriving DecidableEq

/-- The `comparisons` array built by `compareResults`
(`src/lib/results.ts`, lines 307–356) once both summaries have loaded:
per metric, `diff = after - before`, `percentChange = diff / before * 100`,
`improved` is `after > before` for the score and `after < before` for every
timing/shift metric. -/
def compareSummaries (summary1 summary2 : MeasurementSummary) : List ComparisonResult :=
  [ { metric := "Performance Score"
      before := summary1.averages.score
      after := summary2.averages.score
      diff := summary2.averages.score - summary1.averages.score
      percentChange := (summary2.averages.score - summary1.averages.score) / summary1.averages.score * 100
      improved := decide (summary2.averages.score > summary1.averages.score) },
    { metric := "FCP (ms)"
      before := summary1.averages.fcp
      after := summary2.averages.fcp
      diff := summary2.averages.fcp - summary1.averages.fcp
      percentChange := (summary2.averages.fcp - summary1.averages.fcp) / summary1.averages.fcp * 100
      improved := decide (summary2.averages.fcp < summary1.averages.fcp) },
    { metric := "LCP (ms)"
      before := summary1.averages.lcp
      after := summary2.averages.lcp
      diff := summary2.averages.lcp - summary1.averages.lcp
      percentChange := (summary2.averages.lcp - summary1.averages.lcp) / summary1.averages.lcp * 100
      improved := decide (summary2.averages.lcp < summary1.averages.lcp) },
    { metric := "TBT (ms)"
      before := summary1.averages.tbt
      after := summary2.averages.tbt
      diff := summary2.averages.tbt - summary1.averages.tbt
      percentChange := (summary2.averages.tbt - summary1.averages.tbt) / summary1.averages.tbt * 100
      improved := decide (summary2.averages.tbt < summary1.averages.tbt) },
    { metric := "CLS"
      before := summary1.averages.cls
      after := summary2.averages.cls
      diff := summary2.averages.cls - summary1.averages.cls
      percentChange := (summary2.averages.cls - summary1.averages.cls) / summary1.averages.cls * 100
      improved := decide (summary2.averages.cls < summary1.averages.cls) },
    { metric := "Speed Index (ms)"
      before := summary1.averages.si
      after := summary2.averages.si
      diff := summary2.averages.si - summary1.averages.si
      percentChange := (summary2.averages.si - summary1.averages.si) / summary1.averages.si * 100
      improved := decide (summary2.averages.si < summary1.averages.si) } ]

/-- `compareResults` (`src/lib/results.ts`, lines 283–380): its inputs are
the two `loadSummary` results; if either fails to load (`null`) it reports
an error and produces no comparison, otherwise it computes the comparison
table.  Printing is elided. -/
def compareResults (summary1 summary2 : Option MeasurementSummary) :
    Option (List ComparisonResult) :=
  match summary1, summary2 with
  | some s1, some s2 => some (compareSummaries s1 s2)
  | _, _ => none

/-- C5: for every pair of successfully loaded summaries, the comparison
computes per metric `diff = after - before` and
`percentChange = diff / before * 100`, and `improved` has the
metric-specific polarity — true for the score exactly when the value rose,
true for each of fcp, lcp, tbt, cls, si exactly when the value fell. -/
theorem compareResults_diff_polarity (s1 s2 : MeasurementSummary) :
    ∃ c0 c1 c2 c3 c4 c5,
      compareResults (some s1) (some s2) = some [c0, c1, c2, c3, c4, c5] ∧
      (c0.before = s1.averages.score ∧ c0.after = s2.averages.score ∧
        c0.diff = s2.averages.score - s1.averages.score ∧
        c0.percentChange = c0.diff / s1.averages.score * 100 ∧
        (c0.improved = true ↔ s1.averages.score < s2.averages.score)) ∧
      (c1.before = s1.averages.fcp ∧ c1.after = s2.averages.fcp ∧
        c1.diff = s2.averages.fcp - s1.averages.fcp ∧
        c1.percentChange = c1.diff / s1.averages.fcp * 100 ∧
        (c1.improved = true ↔ s2.averages.fcp < s1.averages.fcp)) ∧
      (c2.before = s1.averages.lcp ∧ c2.after = s2.averages.lcp ∧
        c2.diff = s2.averages.lcp - s1.averages.lcp ∧
        c2.percentChange = c2.diff / s1.averages.lcp * 100 ∧
        (c2.improved = true ↔ s2.averages.lcp < s1.averages.lcp)) ∧
      (c3.before = s1.averages.tbt ∧ c3.after = s2.averages.tbt ∧
        c3.diff = s2.averages.tbt - s1.averages.tbt ∧
        c3.percentChange = c3.diff / s1.averages.tbt * 100 ∧
        (c3.improved = true ↔ s2.averages.tbt < s1.averages.tbt)) ∧
      (c4.before = s1.averages.cls ∧ c4.after = s2.averages.cls ∧
        c4.diff = s2.averages.cls - s1.averages.cls ∧
        c4.percentChange = c4.diff / s1.averages.cls * 100 ∧
        (c4.improved = true ↔ s2.averages.cls < s1.averages.cls)) ∧
      (c5.before = s1.averages.si ∧ c5.after = s2.averages.si ∧
        c5.diff = s2.averages.si - s1.averages.si ∧
        c5.percentChange = c5.diff / s1.averages.si * 100 ∧
        (c5.improved = true ↔ s2.averages.si < s1.averages.si)) := by
  refine ⟨_, _, _, _, _, _, rfl, ?_, ?_, ?_, ?_, ?_, ?_⟩ <;>
    refine ⟨rfl, rfl, rfl, rfl, ?_⟩ <;> simp [gt_iff_lt]

/-! ## Result log fan-out (`src/lib/results.ts`, `appendToJsonlLog` / `saveResults`)

The log universe is modelled by `LogPath`: the global `measurements.jsonl`,
the per-tag `tags/{sanitized}.jsonl` files and the per-scenario
`scenarios/{sanitized}.jsonl` files live in distinct directories, so the
three constructors can never alias, and two tag logs coincide exactly when
the sanitized names coincide.  The on-disk state of all logs is the list
of appended `(path, line)` writes, in write order: `appendFileSync` only
ever extends this journal. -/

/-- The sanitizer applied per character by
`tag.replace(/[^a-zA-Z0-9-_]/g, '-')` followed by `.toLowerCase()`. -/
def sanitizeChar (c : Char) : Char :=
  if c.isAlphanum || c = '-' || c = '_' then c.toLower else '-'

/-- Tag/scenario-id sanitization (`src/lib/results.ts`, lines 52 and 66). -/
def sanitizeTag (s : String) : String := ⟨s.data.map sanitizeChar⟩

/-- A physical log file. -/
inductive LogPath where
  | main
  | tag (name : String)
  | scenario (name : String)
  deriving DecidableEq

/-- One appended JSONL line. -/
structure LogWrite where
  path : LogPath
  line : String
  deriving DecidableEq

/-- `getLogPathForTag` (`src/lib/results.ts`, lines 42–54). -/
def getLogPathForTag (t : String) : LogPath := LogPath.tag (sanitizeTag t)

/-- `getLogPathForScenario` (`src/lib/results.ts`, lines 56–68). -/
def getLogPathForScenario (i : String) : LogPath := LogPath.scenario (sanitizeTag i)

/-- `appendToJsonlLog` (`src/lib/results.ts`, lines 76–114): one
`appendFileSync` to the global log, one per tag when the tag list is
non-empty, one to the scenario log when a scenario id is given — all with
the same rendered record `jsonLine` (the JSON rendering of the summary
plus `loggedAt`/`tags`/`scenarioId` is opaque to the claims and is passed
in already serialized). -/
def appendToJsonlLog (log : List LogWrite) (jsonLine : String)
    (tags : List String) (scenarioId : Option String) : List LogWrite :=
  ((log ++ [{ path := LogPath.main, line := jsonLine }])
    ++ (if tags.length > 0 then
          tags.map (fun t => { path := getLogPathForTag t, line := jsonLine })
        else []))
    ++ (match scenarioId with
        | some sid => [{ path := getLogPathForScenario sid, line := jsonLine }]
        | none => [])

/-- `saveResults` (`src/lib/results.ts`, lines 138–188), restricted to its
effect on the append-only logs: the summary document itself goes to a
fresh session directory (a `writeFileSync` of a new file, not a log
append) and is not part of the journal. -/
def saveResults (log : List LogWrite) (jsonLine : String)
    (tags : List String) (scenarioId : Option String) : List LogWrite :=
  appendToJsonlLog log jsonLine tags scenarioId

/-- Number of lines a batch of writes appends to one log file. -/
def countPath (p : LogPath) (ws : List LogWrite) : Nat :=
  (ws.filter (fun w => w.path = p)).length

/-- `countPath` distributes over concatenation of write batches. -/
theorem countPath_append (p : LogPath) (a b : List LogWrite) :
    countPath p (a ++ b) = countPath p a + countPath p b := by
  simp [countPath, List.filter_append]

/-- `countPath` over a cons of writes. -/
theorem countPath_cons (p : LogPath) (w : LogWrite) (ws : List LogWrite) :
    countPath p (w :: ws) = (if w.path = p then 1 else 0) + countPath p ws := by
  by_cases h : w.path = p <;> simp [countPath, List.filter_cons, h]
  omega

/-- Tag writes never land in the global log. -/
theorem countPath_main_tagWrites (jsonLine : String) (tags : List String) :
    countPath LogPath.main
      (tags.map (fun t => { path := getLogPathForTag t, line := jsonLine })) = 0 := by
  induction tags with
  | nil => rfl
  | cons t rest ih =>
    simp only [List.map_cons] at ih ⊢
    rw [countPath_cons] at *
    simpa [getLogPathForTag] using ih

/-- The lines a batch of tag writes appends to one tag's log are counted by
the multiplicity of that sanitized name among the written tags. -/
theorem countPath_tag_tagWrites (jsonLine : String) (n : String) (tags : List String) :
    countPath (LogPath.tag n)
      (tags.map (fun t => { path := getLogPathForTag t, line := jsonLine })) =
      (tags.map sanitizeTag).count n := by
  induction tags with
  | nil => rfl
  | cons t rest ih =>
    by_cases h : sanitizeTag t = n
    · simp [countPath, getLogPathForTag, List.count_cons, h] at *
      omega
    · simp [countPath, getLogPathForTag, List.count_cons, h] at *
      exact ih

/-- C6: a save appends, never truncates — the previous journal survives as
a prefix; the appended batch carries the same record on every line, puts
exactly one line in the global log, exactly one line in each tag's log
(tags mapping to distinct log files, as sets of distinct tags do), and
with no tags and no scenario id the batch is exactly the one global
line. -/
theorem saveResults_fanout_append_only (log : List LogWrite) (jsonLine : String)
    (tags : List String) (scenarioId : Option String) :
    ∃ w, saveResults log jsonLine tags scenarioId = log ++ w ∧
      (∀ x ∈ w, x.line = jsonLine) ∧
      countPath LogPath.main w = 1 ∧
      ((tags.map sanitizeTag).Nodup →
        ∀ t ∈ tags, countPath (getLogPathForTag t) w = 1) ∧
      (tags = [] → scenarioId = none → w = [{ path := LogPath.main, line := jsonLine }]) := by
  refine ⟨({ path := LogPath.main, line := jsonLine } ::
      (if tags.length > 0 then
        tags.map (fun t => { path := getLogPathForTag t, line := jsonLine })
      else []))
    ++ (match scenarioId with
        | some sid => [{ path := getLogPathForScenario sid, line := jsonLine }]
        | none => []), ?_, ?_, ?_, ?_, ?_⟩
  · simp only [saveResults, appendToJsonlLog]
    simp
  · intro x hx
    cases scenarioId with
    | none =>
      simp at hx
      rcases hx with rfl | ⟨-, a, -, rfl⟩ <;> rfl
    | some sid =>
      simp at hx
      rcases hx with rfl | ⟨-, a, -, rfl⟩ | rfl <;> rfl
  · rw [countPath_append, countPath_cons]
    have h2 : countPath LogPath.main
        (if tags.length > 0 then
          tags.map (fun t => { path := getLogPathForTag t, line := jsonLine })
        else []) = 0 := by
      by_cases h : tags.length > 0
      · rw [if_pos h]; exact countPath_main_tagWrites jsonLine tags
      · rw [if_neg h]; rfl
    have h3 : countPath LogPath.main
        (match scenarioId with
          | some sid => [{ path := getLogPathForScenario sid, line := jsonLine }]
          | none => []) = 0 := by
      cases scenarioId <;> simp [countPath, getLogPathForScenario]
    rw [h2, h3]
    rfl
  · intro hnd t ht
    rw [countPath_append, countPath_cons]
    have hlen : tags.length > 0 := List.length_pos.mpr (List.ne_nil_of_mem ht)
    have h2 : countPath (getLogPathForTag t)
        (if tags.length > 0 then
          tags.map (fun t => { path := getLogPathForTag t, line := jsonLine })
        else []) = 1 := by
      rw [if_pos hlen]
      rw [show getLogPathForTag t = LogPath.tag (sanitizeTag t) from rfl]
      rw [countPath_tag_tagWrites]
      exact List.count_eq_one_of_mem hnd (List.mem_map_of_mem _ ht)
    have h3 : countPath (getLogPathForTag t)
        (match scenarioId with
          | some sid => [{ path := getLogPathForScenario sid, line := jsonLine }]
          | none => []) = 0 := by
      cases scenarioId <;> simp [countPath, getLogPathForTag, getLogPathForScenario]
    rw [h2, h3]
    simp [getLogPathForTag]
  · intro htags hsid
    subst htags hsid
    rfl

/-- Witness for C6 at the concrete save of record `"rec"` with tags
`["a", "b"]` into an empty journal. -/
theorem saveResults_fanout_append_only_witness :
    ∃ w, saveResults [] "rec" ["a", "b"] none = [] ++ w ∧
      (∀ x ∈ w, x.line = "rec") ∧
      countPath LogPath.main w = 1 ∧
      ((["a", "b"].map sanitizeTag).Nodup →
        ∀ t ∈ ["a", "b"], countPath (getLogPathForTag t) w = 1) ∧
      (["a", "b"] = ([] : List String) → none = (none : Option String) →
        w = [{ path := LogPath.main, line := "rec" }]) :=
  saveResults_fanout_append_only [] "rec" ["a", "b"] none

/-! ## Process lifecycle manager (`process-manager.ts`)

The collaborators are explicit parameters: `find-process` lookups appear
as an `Except` value per port (the thrown error carried as a message), and
the `tree-kill` callback's error for a pid appears as an
`Option String`. -/

/-- An entry of the `find-process` result list. -/
structure FoundProc where
  pid : Nat
  name : String
  deriving DecidableEq

/-- A Process Registry entry (`RunningProcess` in `process-manager.ts`). -/
structure RunningProcess where
  name : String
  port : Nat
  pid : Nat
  deriving DecidableEq

/-- `Service` (`src/lib/types.ts`). -/
structure Service where
  id : String
  cwd : String
  command : String
  port : Nat
  deriving DecidableEq

/-- JS `String.prototype.includes`, on the character lists. -/
def listHasSub (pat : List Char) : List Char → Bool
  | [] => pat.isEmpty
  | c :: rest => pat.isPrefixOf (c :: rest) || listHasSub pat rest

/-- `msg.includes(pat)`. -/
def strIncludes (s pat : String) : Bool := listHasSub pat.data s.data

/-- `isPortInUse` (`process-manager.ts`, lines 26–33): a lookup success
with a non-empty list means in use; a thrown lookup error is swallowed to
`false`. -/
def isPortInUse (lookup : Except String (List FoundProc)) : Bool :=
  match lookup with
  | Except.ok list => decide (list.length > 0)
  | Except.error _ => false

/-- `getProcessOnPort` (`process-manager.ts`, lines 38–48): first entry of
a successful non-empty lookup, otherwise `null`. -/
def getProcessOnPort (lookup : Except String (List FoundProc)) : Option FoundProc :=
  match lookup with
  | Except.ok (p :: _) => some p
  | Except.ok [] => none
  | Except.error _ => none

/-- `killProcess` (`process-manager.ts`, lines 87–102): the `tree-kill`
callback error is resolved away when its message includes
`"No such process"` or `"ESRCH"`; any other callback error rejects the
promise with that error. -/
def killProcess (treeKillErr : Option String) : Except String Unit :=
  match treeKillErr with
  | none => Except.ok ()
  | some msg =>
    if strIncludes msg "No such process" || strIncludes msg "ESRCH" then Except.ok ()
    else Except.error msg

/-- Observable trace of one `stopAll` run. -/
structure StopAllTrace where
  /-- pids for which a tracked-process kill was issued, in registry order. -/
  killAttempts : List Nat
  /-- `"Stopped {name}"` log lines (the success path of the first loop). -/
  stoppedLogs : List String
  /-- errors that escape a per-pid iteration to `stopAll`'s caller. -/
  surfaced : List String
  /-- pids killed in the port re-probe phase. -/
  portKills : List Nat
  /-- the Process Registry contents after the run. -/
  registryAfter : List RunningProcess
  deriving DecidableEq

/-- One iteration of `stopAll`'s first loop (`process-manager.ts`, lines
218–225): `try { await killProcess(proc.pid); log }` with a bare
`catch {}` — a rejected kill adds no log line and lets the loop continue;
nothing is re-thrown, so nothing is added to `surfaced`. -/
def stopAllKillStep (treeKillErr : Nat → Option String)
    (tr : StopAllTrace) (proc : RunningProcess) : StopAllTrace :=
  match killProcess (treeKillErr proc.pid) with
  | Except.ok _ =>
    { tr with killAttempts := tr.killAttempts ++ [proc.pid],
              stoppedLogs := tr.stoppedLogs ++ ["Stopped " ++ proc.name] }
  | Except.error _ =>
    { tr with killAttempts := tr.killAttempts ++ [proc.pid] }

/-- One iteration of `stopAll`'s port loop (`process-manager.ts`, lines
231–241): re-probe the port and kill the first owner, errors ignored. -/
def stopAllPortStep (treeKillErr : Nat → Option String)
    (portLookup : Nat → Except String (List FoundProc))
    (tr : StopAllTrace) (port : Nat) : StopAllTrace :=
  match getProcessOnPort (portLookup port) with
  | some p =>
    match killProcess (treeKillErr p.pid) with
    | _ => { tr with portKills := tr.portKills ++ [p.pid] }
  | none => tr

/-- `stopAll` (`process-manager.ts`, lines 213–252): kill every registry
pid (first loop), clear the registry (`clearPids`), then re-probe each
declared port and kill its owner.  The final `waitForPortFree` phase only
sleeps and is not part of the trace. -/
def stopAll (registry : List RunningProcess)
    (treeKillErr : Nat → Option String)
    (portLookup : Nat → Except String (List FoundProc))
    (ports : List Nat) : StopAllTrace :=
  ports.foldl (stopAllPortStep treeKillErr portLookup)
    { registry.foldl (stopAllKillStep treeKillErr)
        { killAttempts := [], stoppedLogs := [], surfaced := [],
          portKills := [], registryAfter := registry } with
      registryAfter := [] }

/-- Folding the first loop attempts every pid in order and neither surfaces
an error nor touches the registry field. -/
theorem foldl_stopAllKillStep (treeKillErr : Nat → Option String)
    (registry : List RunningProcess) (tr : StopAllTrace) :
    (registry.foldl (stopAllKillStep treeKillErr) tr).killAttempts
        = tr.killAttempts ++ registry.map (·.pid) ∧
    (registry.foldl (stopAllKillStep treeKillErr) tr).surfaced = tr.surfaced ∧
    (registry.foldl (stopAllKillStep treeKillErr) tr).registryAfter = tr.registryAfter := by
  induction registry generalizing tr with
  | nil => simp
  | cons proc rest ih =>
    obtain ⟨h1, h2, h3⟩ := ih (stopAllKillStep treeKillErr tr proc)
    refine ⟨?_, ?_, ?_⟩
    · rw [List.foldl_cons, h1]
      cases hk : killProcess (treeKillErr proc.pid) <;>
        simp [stopAllKillStep, hk]
    · rw [List.foldl_cons, h2]
      cases hk : killProcess (treeKillErr proc.pid) <;>
        simp [stopAllKillStep, hk]
    · rw [List.foldl_cons, h3]
      cases hk : killProcess (treeKillErr proc.pid) <;>
        simp [stopAllKillStep, hk]

/-- Folding the port loop neither surfaces an error nor touches the
registry field or the tracked-kill attempts. -/
theorem foldl_stopAllPortStep (treeKillErr : Nat → Option String)
    (portLookup : Nat → Except String (List FoundProc))
    (ports : List Nat) (tr : StopAllTrace) :
    (ports.foldl (stopAllPortStep treeKillErr portLookup) tr).killAttempts
        = tr.killAttempts ∧
    (ports.foldl (stopAllPortStep treeKillErr portLookup) tr).surfaced = tr.surfaced ∧
    (ports.foldl (stopAllPortStep treeKillErr portLookup) tr).registryAfter
        = tr.registryAfter := by
  induction ports generalizing tr with
  | nil => simp
  | cons port rest ih =>
    obtain ⟨h1, h2, h3⟩ := ih (stopAllPortStep treeKillErr portLookup tr port)
    refine ⟨?_, ?_, ?_⟩ <;> rw [List.foldl_cons]
    · rw [h1]
      cases hp : getProcessOnPort (portLookup port) <;>
        simp [stopAllPortStep, hp]
    · rw [h2]
      cases hp : getProcessOnPort (portLookup port) <;>
        simp [stopAllPortStep, hp]
    · rw [h3]
      cases hp : getProcessOnPort (portLookup port) <;>
        simp [stopAllPortStep, hp]

/-- C7 counterexample: a registry pid whose `tree-kill` fails with
`EPERM` — an error `killProcess` does reject with — yet `stopAll`
surfaces nothing to its caller (the bare `catch {}` swallows it); the
teardown still attempts the pid and clears the registry.  This refutes
"any other kill error surfaces to the caller for that single pid". -/
theorem stopAll_eperm_not_surfaced :
    killProcess (some "EPERM: operation not permitted")
        = Except.error "EPERM: operation not permitted" ∧
    "EPERM: operation not permitted" ∉
      (stopAll [{ name := "web", port := 3000, pid := 42 }]
        (fun _ => some "EPERM: operation not permitted")
        (fun _ => Except.ok []) [3000]).surfaced ∧
    (stopAll [{ name := "web", port := 3000, pid := 42 }]
        (fun _ => some "EPERM: operation not permitted")
        (fun _ => Except.ok []) [3000]).killAttempts = [42] ∧
    (stopAll [{ name := "web", port := 3000, pid := 42 }]
        (fun _ => some "EPERM: operation not permitted")
        (fun _ => Except.ok []) [3000]).registryAfter = [] := by
  refine ⟨rfl, ?_, rfl, rfl⟩
  have hs : (stopAll [{ name := "web", port := 3000, pid := 42 }]
      (fun _ => some "EPERM: operation not permitted")
      (fun _ => Except.ok []) [3000]).surfaced = ([] : List String) := rfl
  rw [hs]
  simp

/-- C7 as amended: in `stopAll`'s first phase a "process not found" kill
error is swallowed inside `killProcess`, and every other kill error is
swallowed too — by the per-pid `catch {}` — so no kill error ever surfaces
to `stopAll`'s caller; the teardown still attempts every registry pid in
order, and the registry is cleared afterwards. -/
theorem stopAll_swallows_all_kill_errors (registry : List RunningProcess)
    (treeKillErr : Nat → Option String)
    (portLookup : Nat → Except String (List FoundProc)) (ports : List Nat)
    (msg : String)
    (hnotfound : (strIncludes msg "No such process" || strIncludes msg "ESRCH") = true) :
    killProcess (some msg) = Except.ok () ∧
    (stopAll registry treeKillErr portLookup ports).surfaced = [] ∧
    (stopAll registry treeKillErr portLookup ports).killAttempts
        = registry.map (·.pid) ∧
    (stopAll registry treeKillErr portLookup ports).registryAfter = [] := by
  obtain ⟨h1, h2, h3⟩ := foldl_stopAllKillStep treeKillErr registry
    { killAttempts := [], stoppedLogs := [], surfaced := [],
      portKills := [], registryAfter := registry }
  obtain ⟨p1, p2, p3⟩ := foldl_stopAllPortStep treeKillErr portLookup ports
    { List.foldl (stopAllKillStep treeKillErr)
        { killAttempts := [], stoppedLogs := [], surfaced := [],
          portKills := [], registryAfter := registry } registry with
      registryAfter := [] }
  have hdef : stopAll registry treeKillErr portLookup ports =
      List.foldl (stopAllPortStep treeKillErr portLookup)
        { List.foldl (stopAllKillStep treeKillErr)
            { killAttempts := [], stoppedLogs := [], surfaced := [],
              portKills := [], registryAfter := registry } registry with
          registryAfter := [] } ports := rfl
  refine ⟨?_, ?_, ?_, ?_⟩
  · simp [killProcess, hnotfound]
  · rw [hdef, p2]
    simpa using h2
  · rw [hdef, p1]
    simpa using h1
  · rw [hdef, p3]

/-- Witness for the amended C7 at a concrete registry: one pid dying with
a "not found" error, one with a permission error. -/
theorem stopAll_swallows_all_kill_errors_witness :
    (strIncludes "kill ESRCH" "No such process" || strIncludes "kill ESRCH" "ESRCH") = true ∧
    (killProcess (some "kill ESRCH") = Except.ok () ∧
    (stopAll [{ name := "web", port := 3000, pid := 42 },
              { name := "api", port := 4000, pid := 43 }]
        (fun pid => if pid = 42 then some "kill ESRCH" else some "EPERM")
        (fun _ => Except.ok []) [3000, 4000]).surfaced = [] ∧
    (stopAll [{ name := "web", port := 3000, pid := 42 },
              { name := "api", port := 4000, pid := 43 }]
        (fun pid => if pid = 42 then some "kill ESRCH" else some "EPERM")
        (fun _ => Except.ok []) [3000, 4000]).killAttempts
        = ([{ name := "web", port := 3000, pid := 42 },
            { name := "api", port := 4000, pid := 43 }] : List RunningProcess).map (·.pid) ∧
    (stopAll [{ name := "web", port := 3000, pid := 42 },
              { name := "api", port := 4000, pid := 43 }]
        (fun pid => if pid = 42 then some "kill ESRCH" else some "EPERM")
        (fun _ => Except.ok []) [3000, 4000]).registryAfter = []) :=
  ⟨rfl, stopAll_swallows_all_kill_errors
    [{ name := "web", port := 3000, pid := 42 },
     { name := "api", port := 4000, pid := 43 }]
    (fun pid => if pid = 42 then some "kill ESRCH" else some "EPERM")
    (fun _ => Except.ok []) [3000, 4000] "kill ESRCH" rfl⟩

/-- C8: `isPortInUse` is a total boolean — it answers `true` exactly when
the port-ownership lookup succeeds with a non-empty process list, and
`false` whenever the lookup fails, for any reason. -/
theorem isPortInUse_conservative (lookup : Except String (List FoundProc)) :
    isPortInUse lookup = true ↔ ∃ l, lookup = Except.ok l ∧ 0 < l.length := by
  cases lookup with
  | ok l => simp [isPortInUse]
  | error e => simp [isPortInUse]

/-- The scan of `ensurePortsFree` (`process-manager.ts`, lines 312–318):
walk the declared ports, stopping at the first one in use. -/
def portsAnyInUse (portLookup : Nat → Except String (List FoundProc)) :
    List Service → Bool
  | [] => false
  | s :: rest =>
    if isPortInUse (portLookup s.port) then true
    else portsAnyInUse portLookup rest

/-- `ensurePortsFree` (`process-manager.ts`, lines 309–324): tear
everything down — `stopAll` over the tracked registry and the declared
ports — exactly when some declared port answers as in use.  Returns the
teardown's trace when it ran. -/
def ensurePortsFree (services : List Service) (registry : List RunningProcess)
    (treeKillErr : Nat → Option String)
    (portLookup : Nat → Except String (List FoundProc)) : Option StopAllTrace :=
  if portsAnyInUse portLookup services then
    some (stopAll registry treeKillErr portLookup (services.map (·.port)))
  else none

/-- The short-circuiting scan answers `true` exactly when some declared
service's port is in use. -/
theorem portsAnyInUse_iff (portLookup : Nat → Except String (List FoundProc))
    (services : List Service) :
    portsAnyInUse portLookup services = true ↔
      ∃ s ∈ services, isPortInUse (portLookup s.port) = true := by
  induction services with
  | nil => simp [portsAnyInUse]
  | cons s rest ih =>
    by_cases h : isPortInUse (portLookup s.port) = true
    · simp [portsAnyInUse, h]
    · simp [portsAnyInUse, h, ih]

/-- C9: `ensurePortsFree` invokes the full teardown if and only if at
least one declared service port currently answers as in use; with zero
services declared it never invokes teardown. -/
theorem ensurePortsFree_teardown_iff (services : List Service)
    (registry : List RunningProcess) (treeKillErr : Nat → Option String)
    (portLookup : Nat → Except String (List FoundProc)) :
    ((ensurePortsFree services registry treeKillErr portLookup).isSome ↔
      ∃ s ∈ services, isPortInUse (portLookup s.port) = true) ∧
    ensurePortsFree [] registry treeKillErr portLookup = none := by
  constructor
  · rw [← portsAnyInUse_iff portLookup services]
    unfold ensurePortsFree
    by_cases h : portsAnyInUse portLookup services = true <;> simp [h]
  · rfl

end Webperf
